import Mathlib

/-!
# Verification of the `subgrid_emu` basis-reduced GP prediction engine

Shallow embedding of the prediction core of the `subgrid_emu` package
(`subgrid_emu/emulator.py`, `subgrid_emu/model_metadata.py`,
`subgrid_emu/data_utils.py`, `subgrid_emu/workaround_2p_models.py`).

Numeric values are modelled over `ℝ`.  Numpy 2-D arrays produced by
stacking a Python list of vectors are modelled as `List (List ℝ)` so that
array shapes are emergent from the stacking code rather than fixed by a
Lean type.  The per-row Gaussian-process predictive computation is
performed by the external SEPIA library (`SepiaEmulatorPrediction`), which
is not part of this repository; it is modelled from the spec (§4.3).
-/

namespace SubgridEmu

open Matrix

/-! ## List / array helpers (numpy semantics) -/

/-- Default element used when reading past the end of a list of reals. -/
def rdef : ℝ := 0

/-- `np.array(vs).T` for a Python list `vs` of `k` vectors of length `m`:
the resulting 2-D array has `m` rows (one per output index) and `k`
columns (one per stacked vector).  Row `j` collects entry `j` of every
vector, in order. -/
def stackT (m : ℕ) (vs : List (Fin m → ℝ)) : List (List ℝ) :=
  (List.finRange m).map (fun j => vs.map (fun v => v j))

/-- Elementwise unary operation on a 2-D array (numpy broadcasting of a
scalar function). -/
def ew1 (f : ℝ → ℝ) (a : List (List ℝ)) : List (List ℝ) :=
  a.map (fun row => row.map f)

/-- Elementwise binary operation on two 2-D arrays of the same shape
(numpy elementwise arithmetic). -/
def ew2 (f : ℝ → ℝ → ℝ) (a b : List (List ℝ)) : List (List ℝ) :=
  List.zipWith (List.zipWith f) a b

/-- The result of a numpy computation as returned to the caller: a
scalar, a 1-D array or a 2-D array (`squeeze` can change the rank). -/
inductive PyArray where
  | scalar : ℝ → PyArray
  | arr1 : List ℝ → PyArray
  | arr2 : List (List ℝ) → PyArray
deriving Inhabited

/-- `shape` of a `PyArray` (for 2-D arrays: rows, then row width — numpy
arrays are rectangular, so the width of the first row is the width). -/
def PyArray.shape : PyArray → List ℕ
  | .scalar _ => []
  | .arr1 v => [v.length]
  | .arr2 a => [a.length, (a.headD []).length]

/-- `squeeze()` applied to an `m×1` 2-D array: drops all unit axes, so
the single column becomes a length-`m` vector, or a scalar when `m = 1`. -/
def squeezeCol (a : List (List ℝ)) : PyArray :=
  let col := a.map (fun row => row.headD rdef)
  if a.length = 1 then .scalar (col.headD rdef) else .arr1 col

/-! ## Variant name tables (`emulator.py` lines 41–44) -/

/-- `AVAILABLE_STATS_5P` from `emulator.py`. -/
def AVAILABLE_STATS_5P : List String := ["GSMF", "CGD", "fGas", "BHMSM", "CSFR", "Pk"]

/-- `AVAILABLE_STATS_2P` from `emulator.py`. -/
def AVAILABLE_STATS_2P : List String := ["CGD_2p", "fGas_2p", "Pk_2p"]

/-- The error raised by the emulator facade. -/
inductive EmuError where
  | unknownStatistic (name : String) (available : List String)
  | dimMismatch (expected actual : ℕ)
deriving DecidableEq, Repr

/-- The statistic-name check of `SubgridEmulator.__init__`
(`emulator.py` lines 157–162): a name outside
`AVAILABLE_STATS_2P + AVAILABLE_STATS_5P` raises `ValueError` whose
message lists `AVAILABLE_STATS_5P + AVAILABLE_STATS_2P`. -/
def checkStatName (stat_name : String) : Except EmuError Unit :=
  if stat_name ∈ AVAILABLE_STATS_2P ++ AVAILABLE_STATS_5P then
    Except.ok ()
  else
    Except.error (.unknownStatistic stat_name (AVAILABLE_STATS_5P ++ AVAILABLE_STATS_2P))

/-! ## Output transform (`emulator.py` lines 372–382)

The transform acts on the stacked 2-D arrays `pred_mean`, `pred_std`.
For GSMF the new std is computed from the still-untouched mean, and only
then is the mean overwritten; likewise for BHMSM. -/

/-- The output-transform block of `SubgridEmulator.predict`
(`emulator.py` lines 372–382), acting elementwise on the stacked arrays. -/
noncomputable def applyStatTransform (stat_name : String) (pred_mean pred_std : List (List ℝ)) :
    List (List ℝ) × List (List ℝ) :=
  if stat_name = "GSMF" then
    let pred_std' := ew2 (fun mu s => s / (mu * Real.log 10)) pred_mean pred_std
    let pred_mean' := ew1 (fun mu => Real.logb 10 mu) pred_mean
    (pred_mean', pred_std')
  else if stat_name = "BHMSM" then
    let pred_std' := ew2 (fun mu s => s * (10 : ℝ) ^ mu * Real.log 10) pred_mean pred_std
    let pred_mean' := ew1 (fun mu => (10 : ℝ) ^ mu) pred_mean
    (pred_mean', pred_std')
  else
    (pred_mean, pred_std)

/-! ## The per-row GP predictive engine

Modelled from the spec: the per-request-row Gaussian-process predictive
computation is performed by `SepiaEmulatorPrediction` of the external
SEPIA library, which is not part of this repository.  Spec §4.3: per
requested input row, each of the `r` PC components is an independent
scalar GP; the correlation vector between the (placeholder-augmented)
input and every training design point uses a powered-exponential
correlation with per-dimension length-scales; one linear solve per
component against the fixed nugget-augmented training correlation matrix
yields the conditional mean and variance; the `r` conditional variances
form a diagonal covariance. -/

/-- Hyperparameters and training data of the reconciled GP posterior over
`r` PC weights, with `pq` effective input dimensions (`p` physical
parameters plus the legacy observational dimension `q`) and `n` training
design points.  Modelled from the spec (§3, §4.3). -/
structure GP (pq r n : ℕ) where
  design : Fin n → Fin pq → ℝ
  beta : Fin r → Fin pq → ℝ
  lamUz : Fin r → ℝ
  lamWs : Fin r → ℝ
  w : Fin r → Fin n → ℝ

/-- Powered-exponential correlation between two (augmented) inputs for
one PC component's length-scales.  Modelled from the spec (§4.3 step 1). -/
noncomputable def corr {pq : ℕ} (beta : Fin pq → ℝ) (x t : Fin pq → ℝ) : ℝ :=
  Real.exp (-(∑ d, beta d * (x d - t d) ^ 2))

/-- Training-point correlation matrix of component `j`, nugget-augmented
on the diagonal.  Modelled from the spec (§4.3 step 2). -/
noncomputable def trainCorr {pq r n : ℕ} (g : GP pq r n) (j : Fin r) :
    Matrix (Fin n) (Fin n) ℝ :=
  fun a b => corr (g.beta j) (g.design a) (g.design b) +
    if a = b then (g.lamWs j)⁻¹ else 0

/-- Correlation vector between a new (augmented) input and every training
design point, for component `j`.  Modelled from the spec (§4.3 step 1). -/
noncomputable def corrVec {pq r n : ℕ} (g : GP pq r n) (j : Fin r) (x : Fin pq → ℝ) :
    Fin n → ℝ :=
  fun a => corr (g.beta j) x (g.design a)

/-- GP conditional mean of the PC weight of component `j` at the
(augmented) input `x`: one linear solve against the fixed training
correlation matrix.  Modelled from the spec (§4.3 step 2). -/
noncomputable def condMean {pq r n : ℕ} (g : GP pq r n) (j : Fin r) (x : Fin pq → ℝ) : ℝ :=
  dotProduct (corrVec g j x) ((trainCorr g j)⁻¹ *ᵥ g.w j)

/-- GP conditional variance of the PC weight of component `j` at the
(augmented) input `x`.  Modelled from the spec (§4.3 step 2). -/
noncomputable def condVar {pq r n : ℕ} (g : GP pq r n) (j : Fin r) (x : Fin pq → ℝ) : ℝ :=
  (g.lamUz j)⁻¹ * (1 - dotProduct (corrVec g j x) ((trainCorr g j)⁻¹ *ᵥ corrVec g j x))

/-- The per-row predictive mean vector and diagonal covariance over PC
weights (`pred.mu[i]`, `pred.sigma[i]` of `SepiaEmulatorPrediction`,
external to the repository).  Modelled from the spec (§4.3 step 3):
off-diagonal terms across components are zero under the separability
assumption. -/
noncomputable def muSigma {pq r n : ℕ} (g : GP pq r n) (x : Fin pq → ℝ) :
    (Fin r → ℝ) × Matrix (Fin r) (Fin r) ℝ :=
  (fun j => condMean g j x, Matrix.diagonal (fun j => condVar g j x))

/-- Augment a `p`-dimensional request row with `q` copies of the fixed
placeholder observational coordinate (the `x_obs` value of the training
structure).  Modelled from the spec (§4.2): for `q = 1` variants a single
fixed placeholder coordinate is substituted for every prediction
request. -/
def augment {p q : ℕ} (placeholder : ℝ) (x : Fin p → ℝ) : Fin (q + p) → ℝ :=
  Fin.addCases (fun _ => placeholder) x

/-! ## Emulator state (`SubgridEmulator` after `_load_model` and
`_cache_prediction_constants`, `emulator.py` lines 182–296) -/

/-- The loaded emulator state for one variant: the statistic name, the
fixed placeholder observational coordinate (`x_obs`, used only when
`q = 1`), the reconciled GP posterior, and the constants cached by
`_cache_prediction_constants`: the PC basis `K` (an `r × m` array, as in
`sepia`), and the per-output-index standardization constants `orig_y_sd`
and `orig_y_mean`. -/
structure Emu (p q r m n : ℕ) where
  statName : String
  placeholder : ℝ
  gp : GP (q + p) r n
  K : Matrix (Fin r) (Fin m) ℝ
  y_sd : Fin m → ℝ
  y_mean : Fin m → ℝ

/-- The per-row body of the prediction loop (`emulator.py` lines
354–367): project the PC-weight mean and covariance through the basis
(`y_mu = K.T @ mu`, `y_cov = K.T @ Sigma @ K`), take the clipped square
root of the diagonal, and de-standardize with the cached constants. -/
noncomputable def rowPredict {p q r m n : ℕ} (E : Emu p q r m n) (x : Fin p → ℝ) :
    (Fin m → ℝ) × (Fin m → ℝ) :=
  let ms := muSigma E.gp (augment (q := q) E.placeholder x)
  let y_mu := E.K.transpose *ᵥ ms.1
  let y_cov := E.K.transpose * ms.2 * E.K
  let y_std := fun j => Real.sqrt (max (Matrix.diag y_cov j) 0)
  (fun j => E.y_sd j * y_mu j + E.y_mean j, fun j => E.y_sd j * y_std j)

/-- The prediction loop and stacking of `SubgridEmulator.predict`
(`emulator.py` lines 351–382): per-row means and stds are collected in
Python lists, stacked and transposed (`np.array(means).T`, shape
`m × k`), and the variant's output transform is applied to the stacked
arrays. -/
noncomputable def predictArrays {p q r m n : ℕ} (E : Emu p q r m n)
    (xs : List (Fin p → ℝ)) : List (List ℝ) × List (List ℝ) :=
  let means := xs.map (fun x => (rowPredict E x).1)
  let stds := xs.map (fun x => (rowPredict E x).2)
  applyStatTransform E.statName (stackT m means) (stackT m stds)

/-- The tail of `SubgridEmulator.predict` (`emulator.py` lines 384–389):
squeeze the stacked arrays when the trailing (per-request) dimension is
1, then return the pair. -/
noncomputable def predictFinal {p q r m n : ℕ} (E : Emu p q r m n)
    (xs : List (Fin p → ℝ)) : PyArray × PyArray :=
  let pm := (predictArrays E xs).1
  let ps := (predictArrays E xs).2
  if (pm.headD []).length = 1 then (squeezeCol pm, squeezeCol ps)
  else (.arr2 pm, .arr2 ps)

/-- `SubgridEmulator.predict` with the input-width check (`emulator.py`
lines 335–341): the request is a 2-D array of `k` rows of width `w`; if
`w ≠ p` a `ValueError` reporting the expected and actual widths is
raised before any prediction is computed. -/
noncomputable def predict {p q r m n : ℕ} (E : Emu p q r m n)
    (params : List (List ℝ)) : Except EmuError (PyArray × PyArray) :=
  let w := (params.headD []).length
  if w = p then
    Except.ok (predictFinal E (params.map (fun row j => row.getD j rdef)))
  else
    Except.error (.dimMismatch p w)

/-! ## Call-history model (`predict` performs no state mutation)

`SubgridEmulator.predict` (`emulator.py` lines 298–389) reads the cached
constants and assigns no attribute of `self`; a call therefore returns
its output together with the unchanged state. -/

/-- One `predict` call as a state transition: the output of
`SubgridEmulator.predict` paired with the state after the call.  The
method body assigns no attribute of `self`, so the state after the call
is the state before it. -/
noncomputable def predictCall {p q r m n : ℕ} (E : Emu p q r m n)
    (xs : List (Fin p → ℝ)) : (PyArray × PyArray) × Emu p q r m n :=
  (predictFinal E xs, E)

/-- Run a sequence of `predict` calls, threading the state. -/
noncomputable def runCalls {p q r m n : ℕ} (E : Emu p q r m n)
    (calls : List (List (Fin p → ℝ))) : Emu p q r m n :=
  calls.foldl (fun s c => (predictCall s c).2) E

/-- The 2-parameter-variant branch of `SubgridEmulator._load_model`
(`emulator.py` lines 209–232) followed by
`_cache_prediction_constants` (lines 289–296): the dummy observational
input is the fixed constant `x_obs = [[0.5]]`, set once at load time, and
the cached basis, standardization constants and posterior sample are
frozen into the state. -/
noncomputable def mkEmu2p {p r m n : ℕ} (stat_name : String) (gp : GP (1 + p) r n)
    (K : Matrix (Fin r) (Fin m) ℝ) (y_sd y_mean : Fin m → ℝ) : Emu p 1 r m n :=
  { statName := stat_name
    placeholder := 0.5
    gp := gp
    K := K
    y_sd := y_sd
    y_mean := y_mean }

/-! ## Variant metadata (`model_metadata.py`) and output grids
(`data_utils.py`) -/

/-- `np.linspace(a, b, n)`: `n` evenly spaced values from `a` to `b`
inclusive. -/
noncomputable def linspace (a b : ℝ) (n : ℕ) : List ℝ :=
  (List.range n).map (fun i => a + (b - a) * i / (n - 1))

/-- `np.logspace(a, b, n) = 10 ** np.linspace(a, b, n)`. -/
noncomputable def logspace (a b : ℝ) (n : ℕ) : List ℝ :=
  (linspace a b n).map (fun t => (10 : ℝ) ^ t)

/-- One entry of the `TRAINING_GRIDS` table of `model_metadata.py`:
the training output grid `y_ind`, the input dimensionality `n_params`,
and the explained-variance threshold `exp_variance`. -/
structure TrainingGrid where
  y_ind : List ℝ
  n_params : ℕ
  exp_variance : ℝ

/-- The `TRAINING_GRIDS` dictionary of `model_metadata.py` (lines
13–54), keyed by statistic name; `none` for names absent from the
table (e.g. `Pk_2p`). -/
noncomputable def TRAINING_GRIDS : String → Option TrainingGrid
  | "GSMF" => some ⟨logspace 9 12 39, 5, 0.95⟩
  | "BHMSM" => some ⟨logspace 10 12.5 20, 5, 0.95⟩
  | "fGas" => some ⟨logspace 13.5 14.5 40, 5, 0.95⟩
  | "CGD" => some ⟨((linspace (-2) 0.5 21).drop 1).map (fun t => (10 : ℝ) ^ t), 5, 0.95⟩
  | "Pk" => some ⟨logspace (Real.logb 10 0.04908738521234052)
      (Real.logb 10 12.566370614359172) 443, 5, 0.95⟩
  | "CSFR" => some ⟨linspace 0.1 1.0 655, 5, 0.95⟩
  | "CGD_2p" => some ⟨((linspace (-2) 0.5 21).drop 1).map (fun t => (10 : ℝ) ^ t), 2, 0.99⟩
  | "fGas_2p" => some ⟨logspace 13.5 14.5 40, 2, 0.99⟩
  | _ => none

/-- `get_training_grid` of `model_metadata.py` (lines 57–74): raises
`ValueError` for names not in the table. -/
noncomputable def get_training_grid (stat_name : String) : Except String TrainingGrid :=
  match TRAINING_GRIDS stat_name with
  | some g => Except.ok g
  | none => Except.error ("Unknown statistic: " ++ stat_name)

/-- The explained-variance selection of `SubgridEmulator.__init__`
(`emulator.py` lines 164–177): use the caller-supplied value when given,
else the metadata default; for names absent from the metadata table the
`ValueError` of `get_training_grid` is caught and the fallback default is
0.99 for 2-parameter variants and 0.95 otherwise. -/
noncomputable def initExpVariance (stat_name : String) (exp_variance : Option ℝ) : ℝ :=
  match get_training_grid stat_name with
  | Except.ok metadata => exp_variance.getD metadata.exp_variance
  | Except.error _ =>
    if stat_name ∈ AVAILABLE_STATS_2P then exp_variance.getD 0.99
    else exp_variance.getD 0.95

/-- The `n_params` selection of `SubgridEmulator.__init__` (`emulator.py`
lines 164–177), in the same `try/except` as the threshold selection. -/
noncomputable def initNParams (stat_name : String) : ℕ :=
  match get_training_grid stat_name with
  | Except.ok metadata => metadata.n_params
  | Except.error _ => if stat_name ∈ AVAILABLE_STATS_2P then 2 else 5

/-- The explained-variance selection of the standalone
`load_2p_model_with_obs_data` loader (`workaround_2p_models.py` lines
51–56): 0.99 for 2-parameter variants except `Pk_2p`, which gets
0.9999.  This loader takes no caller-supplied threshold and is not used
by the `SubgridEmulator` facade. -/
noncomputable def workaround2pExpVariance (stat_name : String) : ℝ :=
  if stat_name = "Pk_2p" then 0.9999 else 0.99

/-- `get_x_grid` of `data_utils.py` (lines 34–93): the output grid and
axis label per statistic name; unknown names raise `ValueError`. -/
noncomputable def get_x_grid (stat_name : String) : Except String (List ℝ × String) :=
  if stat_name = "GSMF" then
    Except.ok (logspace 9 12 39, "Stellar mass")
  else if stat_name = "BHMSM" then
    Except.ok (logspace 10 12.5 20, "Stellar mass")
  else if stat_name ∈ (["fGas", "fGas_2p"] : List String) then
    Except.ok (logspace 13.5 14.5 40, "Halo mass M500c")
  else if stat_name ∈ (["CGD", "CGD_2p"] : List String) then
    Except.ok (((linspace (-2) 0.5 21).drop 1).map (fun t => (10 : ℝ) ^ t), "Radius r over R500c")
  else if stat_name = "CGD_CC_2p" then
    Except.ok (((linspace (-2) 0.5 21).drop 1).map (fun t => (10 : ℝ) ^ t), "Radius r over R500c")
  else if stat_name = "CGED" then
    Except.ok (((linspace (-2) 0.5 21).drop 1).map (fun t => (10 : ℝ) ^ t), "Radius r over R500c")
  else if stat_name = "Pk" then
    Except.ok (logspace (Real.logb 10 0.04908738521234052)
      (Real.logb 10 12.566370614359172) 443, "Wavenumber k")
  else if stat_name = "CSFR" then
    Except.ok (linspace 0.1 1.0 655, "Scale factor a")
  else
    Except.error ("Unknown statistic: " ++ stat_name)

/-! ## The restore control flow of `_load_model`
(`emulator.py` lines 240–282)

`restore_model_info` belongs to the external SEPIA library; the
repository's control flow around it is: attempt the standard restore,
and if it raises `IndexError`, fall back to loading the pickle directly
and manually copying the persisted parameter info and samples into the
model.  Any other exception propagates. -/

/-- Outcome classes of a Python call, as far as the restore control flow
distinguishes them. -/
inductive PyError where
  | indexError
  | otherError
deriving DecidableEq, Repr

/-- The restored chain state of one model parameter after the
manual-field-copy fallback (`emulator.py` lines 277–282): the current
value is the last sample of the persisted chain (`np.take(..., -1,
axis=0)`) and the draws are the whole chain. -/
structure RestoredParam where
  val : List ℝ
  draws : List (List ℝ)

/-- Which path produced the restored model state. -/
inductive RestorePath where
  | standard
  | manualFieldCopy (restored : RestoredParam)

/-- The `try/except IndexError` control flow of
`SubgridEmulator._load_model` around `restore_model_info`
(`emulator.py` lines 247–282): `attempt` is the outcome of the external
standard restore, `samples` is the persisted chain of one parameter from
the pickle.  An `IndexError` is caught and handled by the
manual-field-copy fallback; any other error propagates. -/
def restoreTrainedParams (attempt : Except PyError Unit)
    (samples : List (List ℝ)) : Except PyError RestorePath :=
  match attempt with
  | Except.ok _ => Except.ok RestorePath.standard
  | Except.error PyError.indexError =>
    Except.ok (RestorePath.manualFieldCopy ⟨samples.getLastD [], samples⟩)
  | Except.error e => Except.error e

/-! ## Elementwise characterization of the output transform -/

/-- The elementwise action of the output-transform block on a mean
entry, as a function of the pre-transform mean entry (characterization
of `applyStatTransform`, proved below). -/
noncomputable def tfMean (stat_name : String) (mu : ℝ) : ℝ :=
  if stat_name = "GSMF" then Real.logb 10 mu
  else if stat_name = "BHMSM" then (10 : ℝ) ^ mu
  else mu

/-- The elementwise action of the output-transform block on a std entry,
as a function of the pre-transform mean and std entries (characterization
of `applyStatTransform`, proved below). -/
noncomputable def tfStd (stat_name : String) (mu s : ℝ) : ℝ :=
  if stat_name = "GSMF" then s / (mu * Real.log 10)
  else if stat_name = "BHMSM" then s * (10 : ℝ) ^ mu * Real.log 10
  else s

/-! ## Concrete instances used for witnesses and counterexamples

A degenerate but fully explicit loaded state: one physical parameter,
no legacy observational dimension, one PC component, one output index,
and an empty training set (so the GP conditional mean is 0 and the
conditional variance is 1). -/

/-- A concrete GP posterior over one PC component with no training
points. -/
noncomputable def gp0 : GP 1 1 0 where
  design := Fin.elim0
  beta := fun _ _ => 1
  lamUz := fun _ => 1
  lamWs := fun _ => 1
  w := fun _ => Fin.elim0

/-- A concrete identity-transform variant state (`fGas`). -/
noncomputable def emuId : Emu 1 0 1 1 0 where
  statName := "fGas"
  placeholder := 0.5
  gp := gp0
  K := fun _ _ => 1
  y_sd := fun _ => 1
  y_mean := fun _ => 0

/-- A concrete log10-forward variant state (`GSMF`) whose de-standardized
predictive mean is the negative constant −1. -/
noncomputable def emuGSMF : Emu 1 0 1 1 0 where
  statName := "GSMF"
  placeholder := 0.5
  gp := gp0
  K := fun _ _ => 1
  y_sd := fun _ => 1
  y_mean := fun _ => -1

/-! ## Indexing lemmas for the stacked arrays -/

theorem headD_eq_getD (l : List (List ℝ)) : l.headD [] = l.getD 0 [] := by
  cases l <;> rfl

theorem length_stackT (m : ℕ) (vs : List (Fin m → ℝ)) : (stackT m vs).length = m := by
  simp [stackT]

theorem stackT_getD (m : ℕ) (vs : List (Fin m → ℝ)) (j : ℕ) (hj : j < m) :
    (stackT m vs).getD j [] = vs.map (fun v => v ⟨j, hj⟩) := by
  have hj' : j < (stackT m vs).length := by simpa [length_stackT] using hj
  rw [List.getD_eq_getElem _ _ hj']
  unfold stackT
  rw [List.getElem_map]
  have hj2 : j < (List.finRange m).length := by simpa using hj
  have hfr : (List.finRange m)[j] = ⟨j, hj⟩ := by
    apply Fin.ext
    simp [List.getElem_finRange]
  rw [hfr]

theorem map_getD_entry (m : ℕ) (vs : List (Fin m → ℝ)) (jj : Fin m) (i : ℕ)
    (hi : i < vs.length) :
    (vs.map (fun v => v jj)).getD i rdef = (vs[i]) jj := by
  rw [List.getD_eq_getElem _ _ (by simpa using hi)]
  rw [List.getElem_map]

theorem ew1_getD (f : ℝ → ℝ) (a : List (List ℝ)) (j : ℕ) (hj : j < a.length) :
    (ew1 f a).getD j [] = (a.getD j []).map f := by
  unfold ew1
  rw [List.getD_eq_getElem _ _ (by simpa using hj), List.getElem_map,
    List.getD_eq_getElem _ _ hj]

theorem ew2_getD (f : ℝ → ℝ → ℝ) (a b : List (List ℝ)) (j : ℕ)
    (hja : j < a.length) (hjb : j < b.length) :
    (ew2 f a b).getD j [] = List.zipWith f (a.getD j []) (b.getD j []) := by
  unfold ew2
  rw [List.getD_eq_getElem _ _ (by simp [List.length_zipWith]; omega), List.getElem_zipWith,
    List.getD_eq_getElem _ _ hja, List.getD_eq_getElem _ _ hjb]

theorem zipWith_map_getD (m : ℕ) (as bs : List (Fin m → ℝ)) (jj : Fin m)
    (f : ℝ → ℝ → ℝ) (i : ℕ) (hia : i < as.length) (hib : i < bs.length) :
    (List.zipWith f (as.map (fun v => v jj)) (bs.map (fun v => v jj))).getD i rdef =
      f ((as[i]) jj) ((bs[i]) jj) := by
  rw [List.getD_eq_getElem _ _ (by simp [List.length_zipWith]; omega)]
  rw [List.getElem_zipWith, List.getElem_map, List.getElem_map]

theorem map_map_getD (m : ℕ) (vs : List (Fin m → ℝ)) (jj : Fin m) (f : ℝ → ℝ)
    (i : ℕ) (hi : i < vs.length) :
    ((vs.map (fun v => v jj)).map f).getD i rdef = f ((vs[i]) jj) := by
  rw [List.map_map]
  rw [List.getD_eq_getElem _ _ (by simpa using hi), List.getElem_map]
  rfl

theorem applyStatTransform_stack_entry (stat_name : String) (m : ℕ)
    (as bs : List (Fin m → ℝ))
    (j i : ℕ) (hj : j < m) (hi : i < as.length) (hib : i < bs.length) :
    (((applyStatTransform stat_name (stackT m as) (stackT m bs)).1.getD j []).getD i rdef =
        tfMean stat_name ((as[i]) ⟨j, hj⟩)) ∧
    (((applyStatTransform stat_name (stackT m as) (stackT m bs)).2.getD j []).getD i rdef =
        tfStd stat_name ((as[i]) ⟨j, hj⟩) ((bs[i]) ⟨j, hj⟩)) := by
  have hja : j < (stackT m as).length := by simpa [length_stackT] using hj
  have hjb : j < (stackT m bs).length := by simpa [length_stackT] using hj
  unfold applyStatTransform tfMean tfStd
  split_ifs with h1 h2
  · constructor
    · rw [ew1_getD _ _ _ hja, stackT_getD m as j hj, map_map_getD m as ⟨j, hj⟩ _ i hi]
    · rw [ew2_getD _ _ _ _ hja hjb, stackT_getD m as j hj, stackT_getD m bs j hj,
        zipWith_map_getD m as bs ⟨j, hj⟩ _ i hi hib]
  · constructor
    · rw [ew1_getD _ _ _ hja, stackT_getD m as j hj, map_map_getD m as ⟨j, hj⟩ _ i hi]
    · rw [ew2_getD _ _ _ _ hja hjb, stackT_getD m as j hj, stackT_getD m bs j hj,
        zipWith_map_getD m as bs ⟨j, hj⟩ _ i hi hib]
  · constructor
    · rw [stackT_getD m as j hj, map_getD_entry m as ⟨j, hj⟩ i hi]
    · rw [stackT_getD m bs j hj, map_getD_entry m bs ⟨j, hj⟩ i hib]

/-- Entry `(j, i)` of the stacked, transformed prediction arrays is the
elementwise transform of the de-standardized per-row values of request
row `i` at output index `j`. -/
theorem predictArrays_entry {p q r m n : ℕ} (E : Emu p q r m n)
    (xs : List (Fin p → ℝ)) (j i : ℕ) (hj : j < m) (hi : i < xs.length) :
    (((predictArrays E xs).1.getD j []).getD i rdef =
        tfMean E.statName ((rowPredict E xs[i]).1 ⟨j, hj⟩)) ∧
    (((predictArrays E xs).2.getD j []).getD i rdef =
        tfStd E.statName ((rowPredict E xs[i]).1 ⟨j, hj⟩) ((rowPredict E xs[i]).2 ⟨j, hj⟩)) := by
  unfold predictArrays
  have h := applyStatTransform_stack_entry E.statName m
    (xs.map (fun x => (rowPredict E x).1)) (xs.map (fun x => (rowPredict E x).2))
    j i hj (by simpa using hi) (by simpa using hi)
  simpa using h

/-- Shape of the stacked, transformed prediction arrays: `m` rows, each
of width `k` (the number of request rows). -/
theorem predictArrays_shape {p q r m n : ℕ} (E : Emu p q r m n)
    (xs : List (Fin p → ℝ)) :
    (predictArrays E xs).1.length = m ∧ (predictArrays E xs).2.length = m ∧
    ∀ j, j < m → ((predictArrays E xs).1.getD j []).length = xs.length ∧
      ((predictArrays E xs).2.getD j []).length = xs.length := by
  unfold predictArrays applyStatTransform
  split_ifs with h1 h2
  · refine ⟨?_, ?_, fun j hj => ⟨?_, ?_⟩⟩
    · simp [ew1, length_stackT]
    · simp [ew2, List.length_zipWith, length_stackT]
    · rw [ew1_getD _ _ _ (by simpa [length_stackT] using hj), stackT_getD _ _ _ hj]
      simp
    · rw [ew2_getD _ _ _ _ (by simpa [length_stackT] using hj)
        (by simpa [length_stackT] using hj), stackT_getD _ _ _ hj, stackT_getD _ _ _ hj]
      simp [List.length_zipWith]
  · refine ⟨?_, ?_, fun j hj => ⟨?_, ?_⟩⟩
    · simp [ew1, length_stackT]
    · simp [ew2, List.length_zipWith, length_stackT]
    · rw [ew1_getD _ _ _ (by simpa [length_stackT] using hj), stackT_getD _ _ _ hj]
      simp
    · rw [ew2_getD _ _ _ _ (by simpa [length_stackT] using hj)
        (by simpa [length_stackT] using hj), stackT_getD _ _ _ hj, stackT_getD _ _ _ hj]
      simp [List.length_zipWith]
  · refine ⟨?_, ?_, fun j hj => ⟨?_, ?_⟩⟩
    · simp [length_stackT]
    · simp [length_stackT]
    · rw [stackT_getD _ _ _ hj]
      simp
    · rw [stackT_getD _ _ _ hj]
      simp

/-- The pre-transform std computed by the per-row loop body: the cached
`orig_y_sd` times the clipped square root of a diagonal covariance
entry. -/
theorem rowPredict_std_eq {p q r m n : ℕ} (E : Emu p q r m n) (x : Fin p → ℝ)
    (j : Fin m) :
    (rowPredict E x).2 j =
      E.y_sd j * Real.sqrt (max (Matrix.diag
        (E.K.transpose * (muSigma E.gp (augment (q := q) E.placeholder x)).2 * E.K) j) 0) := rfl

/-- Concrete evaluation: with no training points, unit basis and unit
scale, the de-standardized per-row prediction of `emuGSMF` is mean −1 and
std 1 at the single output index. -/
theorem rowPredict_emuGSMF_eval :
    rowPredict emuGSMF (fun _ => 0) = (fun _ => -1, fun _ => 1) := by
  unfold rowPredict muSigma condMean condVar corrVec trainCorr emuGSMF gp0
  refine Prod.ext ?_ ?_ <;> funext j
  · simp [Matrix.mulVec, dotProduct, Matrix.transpose]
  · simp [Matrix.diag, Matrix.mul_apply, Matrix.diagonal, Matrix.transpose,
      Fin.sum_univ_one, dotProduct]

/-- Concrete evaluation for the identity variant state `emuId`: mean 0
and std 1 at the single output index. -/
theorem rowPredict_emuId_eval :
    rowPredict emuId (fun _ => 0) = (fun _ => 0, fun _ => 1) := by
  unfold rowPredict muSigma condMean condVar corrVec trainCorr emuId gp0
  refine Prod.ext ?_ ?_ <;> funext j
  · simp [Matrix.mulVec, dotProduct, Matrix.transpose]
  · simp [Matrix.diag, Matrix.mul_apply, Matrix.diagonal, Matrix.transpose,
      Fin.sum_univ_one, dotProduct]

/-- When the batch has more than one row (and the output grid is
non-empty), the squeeze branch is not taken. -/
theorem predictFinal_of_many {p q r m n : ℕ} (E : Emu p q r m n)
    (xs : List (Fin p → ℝ)) (hm : 1 ≤ m) (hk : xs.length ≠ 1) :
    predictFinal E xs =
      (.arr2 (predictArrays E xs).1, .arr2 (predictArrays E xs).2) := by
  have hrow := ((predictArrays_shape E xs).2.2 0 (by omega)).1
  simp only [predictFinal]
  rw [headD_eq_getD, if_neg (by rw [hrow]; exact hk)]

/-- When the batch has exactly one row (and the output grid is
non-empty), the result is squeezed. -/
theorem predictFinal_of_one {p q r m n : ℕ} (E : Emu p q r m n)
    (xs : List (Fin p → ℝ)) (hm : 1 ≤ m) (hk : xs.length = 1) :
    predictFinal E xs =
      (squeezeCol (predictArrays E xs).1, squeezeCol (predictArrays E xs).2) := by
  have hrow := ((predictArrays_shape E xs).2.2 0 (by omega)).1
  simp only [predictFinal]
  rw [headD_eq_getD, if_pos (by rw [hrow]; exact hk)]

/-! ## Claim theorems -/

/-- Claim C1: for every prediction, the variant's declared output
transform is applied by the delta method with the derivative evaluated
at the pre-transform mean before the mean is overwritten.  For the
log10-forward variant (GSMF) the returned std entry equals the
pre-transform std divided by the pre-transform mean times ln 10, and the
returned mean entry is the log10 of the pre-transform mean; for the
inverse-log10 variant (BHMSM) the returned std entry equals the
pre-transform std times 10 to the pre-transform mean times ln 10, and
the returned mean entry is 10 to the pre-transform mean; every other
variant returns mean and std unchanged. -/
theorem C1_output_transform_delta {p q r m n : ℕ} (E : Emu p q r m n)
    (xs : List (Fin p → ℝ)) (j i : ℕ) (hj : j < m) (hi : i < xs.length) :
    (E.statName = "GSMF" →
      ((predictArrays E xs).2.getD j []).getD i rdef =
        (rowPredict E xs[i]).2 ⟨j, hj⟩ /
          ((rowPredict E xs[i]).1 ⟨j, hj⟩ * Real.log 10) ∧
      ((predictArrays E xs).1.getD j []).getD i rdef =
        Real.logb 10 ((rowPredict E xs[i]).1 ⟨j, hj⟩)) ∧
    (E.statName = "BHMSM" →
      ((predictArrays E xs).2.getD j []).getD i rdef =
        (rowPredict E xs[i]).2 ⟨j, hj⟩ *
          (10 : ℝ) ^ ((rowPredict E xs[i]).1 ⟨j, hj⟩) * Real.log 10 ∧
      ((predictArrays E xs).1.getD j []).getD i rdef =
        (10 : ℝ) ^ ((rowPredict E xs[i]).1 ⟨j, hj⟩)) ∧
    (E.statName ≠ "GSMF" → E.statName ≠ "BHMSM" →
      ((predictArrays E xs).1.getD j []).getD i rdef =
        (rowPredict E xs[i]).1 ⟨j, hj⟩ ∧
      ((predictArrays E xs).2.getD j []).getD i rdef =
        (rowPredict E xs[i]).2 ⟨j, hj⟩) := by
  obtain ⟨hm, hs⟩ := predictArrays_entry E xs j i hj hi
  refine ⟨fun hg => ⟨?_, ?_⟩, fun hb => ⟨?_, ?_⟩, fun hg hb => ⟨?_, ?_⟩⟩
  · rw [hs]; unfold tfStd; rw [if_pos hg]
  · rw [hm]; unfold tfMean; rw [if_pos hg]
  · rw [hs]; unfold tfStd
    rw [if_neg (by rw [hb]; decide), if_pos hb]
  · rw [hm]; unfold tfMean
    rw [if_neg (by rw [hb]; decide), if_pos hb]
  · rw [hm]; unfold tfMean; rw [if_neg hg, if_neg hb]
  · rw [hs]; unfold tfStd; rw [if_neg hg, if_neg hb]

/-- Witness for C1: the GSMF case at a concrete state and input. -/
theorem C1_witness :
    ((predictArrays emuGSMF [fun _ => 0]).2.getD 0 []).getD 0 rdef =
      (rowPredict emuGSMF (fun _ => 0)).2 0 /
        ((rowPredict emuGSMF (fun _ => 0)).1 0 * Real.log 10) ∧
    ((predictArrays emuGSMF [fun _ => 0]).1.getD 0 []).getD 0 rdef =
      Real.logb 10 ((rowPredict emuGSMF (fun _ => 0)).1 0) :=
  (C1_output_transform_delta emuGSMF [fun _ => 0] 0 0 (by norm_num) (by norm_num)).1 rfl

/-- Counterexample to claim C2 as stated: at a concrete loaded state
with one output index and a batch of two rows, the returned 2-D arrays
have shape `[1, 2]` — the leading dimension is the output-grid length,
not the batch size `k = 2`. -/
theorem C2_counterexample :
    (predictFinal emuId [fun _ => 0, fun _ => 1]).1.shape = [1, 2] ∧
    (predictFinal emuId [fun _ => 0, fun _ => 1]).1.shape.headD 0 ≠ 2 := by
  have h := predictArrays_shape emuId [fun _ => 0, fun _ => 1]
  have hrow := (h.2.2 0 (by norm_num)).1
  have hshape : (predictFinal emuId [fun _ => 0, fun _ => 1]).1.shape = [1, 2] := by
    rw [predictFinal_of_many emuId _ (by norm_num) (by norm_num)]
    simp only [PyArray.shape]
    rw [headD_eq_getD, h.1, hrow]
    rfl
  exact ⟨hshape, by rw [hshape]; norm_num⟩

/-- Claim C2, amended: for every loaded variant with a non-empty output
grid and every batch of `k ≥ 2` rows, `predict` returns mean and std
arrays of shape `m × k` — the output-grid length is the leading
dimension and each of the `k` requested inputs occupies one column; when
`k = 1` (and `m ≥ 2`) the result is squeezed to a vector of length
`m`. -/
theorem C2_batch_shape {p q r m n : ℕ} (E : Emu p q r m n)
    (xs : List (Fin p → ℝ)) (hm : 1 ≤ m) :
    (2 ≤ xs.length →
      (predictFinal E xs).1.shape = [m, xs.length] ∧
      (predictFinal E xs).2.shape = [m, xs.length]) ∧
    (xs.length = 1 → 2 ≤ m →
      (predictFinal E xs).1.shape = [m] ∧
      (predictFinal E xs).2.shape = [m]) := by
  obtain ⟨h1, h2, hrow⟩ := predictArrays_shape E xs
  constructor
  · intro hk
    rw [predictFinal_of_many E xs hm (by omega)]
    constructor
    · simp only [PyArray.shape]
      rw [headD_eq_getD, h1, (hrow 0 (by omega)).1]
    · simp only [PyArray.shape]
      rw [headD_eq_getD, h2, (hrow 0 (by omega)).2]
  · intro hk hm2
    rw [predictFinal_of_one E xs hm hk]
    constructor
    · simp only [squeezeCol]
      rw [if_neg (by rw [h1]; omega)]
      simp only [PyArray.shape]
      rw [List.length_map, h1]
    · simp only [squeezeCol]
      rw [if_neg (by rw [h2]; omega)]
      simp only [PyArray.shape]
      rw [List.length_map, h2]

/-- Witness for the amended C2 at a concrete state and batch. -/
theorem C2_witness :
    (2 ≤ ([fun _ => 0, fun _ => 1] : List (Fin 1 → ℝ)).length →
      (predictFinal emuId [fun _ => 0, fun _ => 1]).1.shape =
        [1, ([fun _ => 0, fun _ => 1] : List (Fin 1 → ℝ)).length] ∧
      (predictFinal emuId [fun _ => 0, fun _ => 1]).2.shape =
        [1, ([fun _ => 0, fun _ => 1] : List (Fin 1 → ℝ)).length]) ∧
    (([fun _ => 0, fun _ => 1] : List (Fin 1 → ℝ)).length = 1 → 2 ≤ 1 →
      (predictFinal emuId [fun _ => 0, fun _ => 1]).1.shape = [1] ∧
      (predictFinal emuId [fun _ => 0, fun _ => 1]).2.shape = [1]) :=
  C2_batch_shape emuId [fun _ => 0, fun _ => 1] (by norm_num)

/-- Claim C5: predicting the `k` rows of a batch one at a time and
predicting them together as one `k`-row batch yield identical mean and
std values for every request row and output index, in the same order:
the per-row loop body depends only on its own row, and the elementwise
output transform commutes with column extraction. -/
theorem C5_batch_equivalence {p q r m n : ℕ} (E : Emu p q r m n)
    (xs : List (Fin p → ℝ)) (j i : ℕ) (hj : j < m) (hi : i < xs.length) :
    ((predictArrays E xs).1.getD j []).getD i rdef =
      ((predictArrays E [xs[i]]).1.getD j []).getD 0 rdef ∧
    ((predictArrays E xs).2.getD j []).getD i rdef =
      ((predictArrays E [xs[i]]).2.getD j []).getD 0 rdef := by
  obtain ⟨hm, hs⟩ := predictArrays_entry E xs j i hj hi
  obtain ⟨hm1, hs1⟩ := predictArrays_entry E [xs[i]] j 0 hj (by norm_num)
  exact ⟨by rw [hm, hm1]; rfl, by rw [hs, hs1]; rfl⟩


/-- Witness for C5 at a concrete state and a two-row batch. -/
theorem C5_witness :
    ((predictArrays emuId [fun _ => 0, fun _ => 1]).1.getD 0 []).getD 1 rdef =
      ((predictArrays emuId [fun _ => 1]).1.getD 0 []).getD 0 rdef ∧
    ((predictArrays emuId [fun _ => 0, fun _ => 1]).2.getD 0 []).getD 1 rdef =
      ((predictArrays emuId [fun _ => 1]).2.getD 0 []).getD 0 rdef :=
  C5_batch_equivalence emuId [fun _ => 0, fun _ => 1] 0 1 (by norm_num) (by norm_num)

/-- Counterexample to claim C3 as stated: a failure of the standard
restore surfacing as `IndexError` is not reported — it is silently
handled by the manual-field-copy fallback, and the load succeeds. -/
theorem C3_counterexample :
    restoreTrainedParams (Except.error PyError.indexError) [[1], [2]] =
      Except.ok (RestorePath.manualFieldCopy ⟨[2], [[1], [2]]⟩) ∧
    restoreTrainedParams (Except.error PyError.indexError) [[1], [2]] ≠
      Except.error PyError.indexError ∧
    restoreTrainedParams (Except.error PyError.indexError) [[1], [2]] ≠
      Except.error PyError.otherError := by
  refine ⟨rfl, fun h => ?_, fun h => ?_⟩ <;> exact Except.noConfusion h

/-- Claim C3, amended: restoring a persisted posterior attempts the
external standard restore; an `IndexError` raised by it is caught and
silently handled by a manual field copy from the pickle, with the
current value taken as the last sample of the persisted chain; any other
failure propagates.  No `(p+q)·r` candidate-length reconciliation is
performed by the repository's code. -/
theorem C3_restore_behavior (samples : List (List ℝ)) :
    restoreTrainedParams (Except.ok ()) samples = Except.ok RestorePath.standard ∧
    restoreTrainedParams (Except.error PyError.indexError) samples =
      Except.ok (RestorePath.manualFieldCopy ⟨samples.getLastD [], samples⟩) ∧
    restoreTrainedParams (Except.error PyError.otherError) samples =
      Except.error PyError.otherError :=
  ⟨rfl, rfl, rfl⟩

/-- Counterexample to claim C4 as stated: at a GSMF state whose
pre-transform predictive mean is negative, the returned std entry is
negative. -/
theorem C4_counterexample :
    ((predictArrays emuGSMF [fun _ => 0]).2.getD 0 []).getD 0 rdef < 0 := by
  have h := (predictArrays_entry emuGSMF [fun _ => 0] 0 0 (by norm_num) (by norm_num)).2
  rw [h]
  have he : rowPredict emuGSMF (([fun _ => 0] : List (Fin 1 → ℝ))[0]) =
      (fun _ => -1, fun _ => 1) := rowPredict_emuGSMF_eval
  rw [he]
  unfold tfStd
  rw [if_pos (show emuGSMF.statName = "GSMF" from rfl)]
  show (1 : ℝ) / (-1 * Real.log 10) < 0
  have hlog : (0 : ℝ) < Real.log 10 := Real.log_pos (by norm_num)
  apply div_neg_of_pos_of_neg one_pos
  linarith

/-- Claim C4, amended: the pre-transform std is always non-negative
(provided the cached standardization scale is non-negative, as a
standard deviation is), and the returned std entry is non-negative for
every variant other than GSMF; for GSMF it is non-negative whenever the
pre-transform mean is positive. -/
theorem C4_std_nonneg {p q r m n : ℕ} (E : Emu p q r m n)
    (xs : List (Fin p → ℝ)) (j i : ℕ) (hj : j < m) (hi : i < xs.length)
    (hsd : ∀ jj : Fin m, 0 ≤ E.y_sd jj) :
    0 ≤ (rowPredict E xs[i]).2 ⟨j, hj⟩ ∧
    (E.statName ≠ "GSMF" →
      0 ≤ ((predictArrays E xs).2.getD j []).getD i rdef) ∧
    (E.statName = "GSMF" → 0 < (rowPredict E xs[i]).1 ⟨j, hj⟩ →
      0 ≤ ((predictArrays E xs).2.getD j []).getD i rdef) := by
  have hpre : 0 ≤ (rowPredict E xs[i]).2 ⟨j, hj⟩ := by
    rw [rowPredict_std_eq]
    exact mul_nonneg (hsd _) (Real.sqrt_nonneg _)
  obtain ⟨hmE, hsE⟩ := predictArrays_entry E xs j i hj hi
  refine ⟨hpre, ?_, ?_⟩
  · intro hg
    rw [hsE]
    unfold tfStd
    rw [if_neg hg]
    split_ifs with hb
    · have h10 : (0 : ℝ) < (10 : ℝ) ^ ((rowPredict E xs[i]).1 ⟨j, hj⟩) :=
        Real.rpow_pos_of_pos (by norm_num) _
      have hlog : (0 : ℝ) ≤ Real.log 10 := Real.log_nonneg (by norm_num)
      exact mul_nonneg (mul_nonneg hpre h10.le) hlog
    · exact hpre
  · intro hg hmean
    rw [hsE]
    unfold tfStd
    rw [if_pos hg]
    have hlog : (0 : ℝ) < Real.log 10 := Real.log_pos (by norm_num)
    exact div_nonneg hpre (le_of_lt (mul_pos hmean hlog))

/-- Witness for the amended C4 at a concrete identity-transform state. -/
theorem C4_witness :
    0 ≤ (rowPredict emuId (fun _ => 0)).2 0 ∧
    (emuId.statName ≠ "GSMF" →
      0 ≤ ((predictArrays emuId [fun _ => 0]).2.getD 0 []).getD 0 rdef) ∧
    (emuId.statName = "GSMF" → 0 < (rowPredict emuId (fun _ => 0)).1 0 →
      0 ≤ ((predictArrays emuId [fun _ => 0]).2.getD 0 []).getD 0 rdef) :=
  C4_std_nonneg emuId [fun _ => 0] 0 0 (by norm_num) (by norm_num)
    (fun _ => by norm_num [emuId])

/-- Folding any sequence of `predict` calls leaves the loaded state
unchanged: the method body assigns no attribute. -/
theorem runCalls_eq_self {p q r m n : ℕ} (E : Emu p q r m n)
    (calls : List (List (Fin p → ℝ))) : runCalls E calls = E := by
  induction calls with
  | nil => rfl
  | cons c cs ih => exact ih

/-- Claim C6: for a `q = 1` (2-parameter) variant, the placeholder
observational coordinate is the fixed constant 0.5 set once at load
time; it is never inferred from or mutated by call history, and two
`predict` calls with the same input return identical output regardless
of how many calls were made in between. -/
theorem C6_placeholder_stability {p r m n : ℕ} (stat_name : String)
    (gp : GP (1 + p) r n) (K : Matrix (Fin r) (Fin m) ℝ)
    (y_sd y_mean : Fin m → ℝ) :
    (mkEmu2p stat_name gp K y_sd y_mean).placeholder = 0.5 ∧
    (∀ calls, (runCalls (mkEmu2p stat_name gp K y_sd y_mean) calls).placeholder = 0.5) ∧
    (∀ calls calls' x,
      (predictCall (runCalls (mkEmu2p stat_name gp K y_sd y_mean) calls) x).1 =
        (predictCall (runCalls (mkEmu2p stat_name gp K y_sd y_mean) calls') x).1) := by
  refine ⟨rfl, fun calls => ?_, fun calls calls' x => ?_⟩
  · rw [runCalls_eq_self]
    rfl
  · rw [runCalls_eq_self, runCalls_eq_self]

/-- Claim C7: a 2-D input whose width differs from the variant's input
dimensionality `p` makes `predict` fail with a dimension-mismatch error
carrying the expected and actual widths, and no prediction is
returned. -/
theorem C7_dim_mismatch {p q r m n : ℕ} (E : Emu p q r m n)
    (params : List (List ℝ)) (hw : (params.headD []).length ≠ p) :
    predict E params =
      Except.error (.dimMismatch p (params.headD []).length) := by
  simp only [predict]
  rw [if_neg hw]

/-- Witness for C7: a width-2 request against a `p = 1` state. -/
theorem C7_witness :
    predict emuId [[1, 2]] = Except.error (.dimMismatch 1 2) :=
  C7_dim_mismatch emuId [[1, 2]] (by norm_num)

/-- Claim C8: constructing an emulator with a name outside the six
5-parameter and three 2-parameter statistics fails with an
unknown-statistic error enumerating all valid names; every name inside
the set passes the name check. -/
theorem C8_unknown_statistic :
    AVAILABLE_STATS_5P.length = 6 ∧ AVAILABLE_STATS_2P.length = 3 ∧
    (∀ s, s ∉ AVAILABLE_STATS_2P ++ AVAILABLE_STATS_5P →
      checkStatName s =
        Except.error (.unknownStatistic s (AVAILABLE_STATS_5P ++ AVAILABLE_STATS_2P))) ∧
    (∀ s, s ∈ AVAILABLE_STATS_2P ++ AVAILABLE_STATS_5P →
      checkStatName s = Except.ok ()) := by
  refine ⟨rfl, rfl, fun s hs => ?_, fun s hs => ?_⟩
  · unfold checkStatName
    rw [if_neg hs]
  · unfold checkStatName
    rw [if_pos hs]

/-- Witness for C8: a made-up name is rejected with the enumerating
error; a valid name passes. -/
theorem C8_witness :
    checkStatName "NOT_A_REAL_STAT" =
      Except.error (.unknownStatistic "NOT_A_REAL_STAT"
        (AVAILABLE_STATS_5P ++ AVAILABLE_STATS_2P)) ∧
    checkStatName "GSMF" = Except.ok () :=
  ⟨C8_unknown_statistic.2.2.1 "NOT_A_REAL_STAT" (by decide),
    C8_unknown_statistic.2.2.2 "GSMF" (by decide)⟩

/-- Claim C9: with no caller-supplied explained-variance threshold, the
threshold used is 0.95 for every 5-parameter variant and 0.99 for every
2-parameter variant, including `Pk_2p`, which is absent from the
metadata table and goes through the fallback; a caller-supplied
threshold always overrides the default. -/
theorem C9_exp_variance_defaults :
    (∀ s ∈ AVAILABLE_STATS_5P, initExpVariance s none = 0.95) ∧
    (∀ s ∈ AVAILABLE_STATS_2P, initExpVariance s none = 0.99) ∧
    (∀ s v, initExpVariance s (some v) = v) := by
  refine ⟨fun s hs => ?_, fun s hs => ?_, fun s v => ?_⟩
  · fin_cases hs <;> rfl
  · fin_cases hs <;> rfl
  · unfold initExpVariance
    cases get_training_grid s with
    | ok g => rfl
    | error e => split_ifs <;> rfl

/-- Witness for C9: the defaults at a metadata variant, at the
fallback-only variant `Pk_2p`, and a caller override. -/
theorem C9_witness :
    initExpVariance "GSMF" none = 0.95 ∧
    initExpVariance "Pk_2p" none = 0.99 ∧
    initExpVariance "CSFR" (some 0.9) = 0.9 :=
  ⟨C9_exp_variance_defaults.1 "GSMF" (by decide),
    C9_exp_variance_defaults.2.1 "Pk_2p" (by decide),
    C9_exp_variance_defaults.2.2 "CSFR" 0.9⟩

/-- Claim C10: for every statistic name defined in both the metadata
table and the grid utility, the output grid returned by `get_x_grid`
equals the `y_ind` grid stored in `TRAINING_GRIDS`. -/
theorem C10_grid_agreement :
    ∀ s ∈ (["GSMF", "BHMSM", "fGas", "CGD", "Pk", "CSFR", "CGD_2p", "fGas_2p"] :
      List String),
      (get_x_grid s).toOption.map Prod.fst =
        (TRAINING_GRIDS s).map TrainingGrid.y_ind := by
  intro s hs
  fin_cases hs <;> rfl

/-- Witness for C10 at the GSMF grid. -/
theorem C10_witness :
    (get_x_grid "GSMF").toOption.map Prod.fst =
      (TRAINING_GRIDS "GSMF").map TrainingGrid.y_ind :=
  C10_grid_agreement "GSMF" (by decide)

end SubgridEmu
